import Mathlib

/-!
Verification development for the TVInsider calendar scraping core
(`modules/scraper.py` and `modules/scraper_optimized.py`).

The Python code is shallowly embedded as executable Lean definitions:

* Python / JavaScript strings become `List Char` processed by explicit
  structural recursion (with `String` at the record boundaries);
* `datetime` values become `Date` triples (proleptic Gregorian, matching
  `datetime.toordinal` for the day arithmetic used by the year heuristic),
  and `datetime.now()` becomes an explicit `Instant` (calendar date plus
  second-of-day, since the 30-day look-back compares against a full
  timestamp);
* `datetime.strptime` for the four accepted header formats and for
  `%Y-%m-%d` is modelled by word-level matchers (`matchF1` .. `matchF4`,
  `fromISO`) that reproduce its 1-2 digit day fields, 1-4 digit year
  fields, `\s+` treatment of format whitespace, name alternations, default
  year 1900 and day-of-month validation;
* exceptions that the code catches per record (`except: continue`,
  `except: pass`) become `Option`; exceptions that escape become the
  `Except` results of `scrapeDateRangeSession`.
-/

/-! ## Character and string helpers -/

/-- Whitespace characters recognised by Python's `str.strip` / `re`'s `\s`
(ASCII portion, which is all the scraped headers contain). -/
def isSpaceC (c : Char) : Bool :=
  c == ' ' || c == '\t' || c == '\n' || c == '\r' || c == Char.ofNat 11 || c == Char.ofNat 12

/-- Python `str.strip()` on a character list. -/
def pyStrip (l : List Char) : List Char :=
  ((l.dropWhile isSpaceC).reverse.dropWhile isSpaceC).reverse

/-- Worker for `pyTitle`: the flag records whether the previous character
was alphabetic. -/
def pyTitleAux : Bool → List Char → List Char
  | _, [] => []
  | prevAlpha, c :: t =>
    if c.isAlpha then
      (if prevAlpha then c.toLower else c.toUpper) :: pyTitleAux true t
    else
      c :: pyTitleAux false t

/-- Python `str.title()`: first letter of every alphabetic run uppercased,
the rest lowercased. -/
def pyTitle (l : List Char) : List Char := pyTitleAux false l

/-- Split on whitespace runs, dropping empty words (models how `\s+` in a
`strptime` format consumes separator whitespace). -/
def splitWsAux : List Char → List Char → List (List Char)
  | [], cur => if cur.isEmpty then [] else [cur.reverse]
  | c :: t, cur =>
    if isSpaceC c then
      if cur.isEmpty then splitWsAux t [] else cur.reverse :: splitWsAux t []
    else
      splitWsAux t (c :: cur)

def splitWs (l : List Char) : List (List Char) := splitWsAux l []

/-- Split at every occurrence of a separator character (used to model
`strptime("%Y-%m-%d")`, whose literal `-` must match exactly). -/
def splitOnCharAux (sep : Char) : List Char → List Char → List (List Char)
  | [], cur => [cur.reverse]
  | c :: t, cur =>
    if c == sep then cur.reverse :: splitOnCharAux sep t []
    else splitOnCharAux sep t (c :: cur)

def splitOnChar (sep : Char) (l : List Char) : List (List Char) :=
  splitOnCharAux sep l []

/-- `p` is an initial segment of `l` (used for the substring test of
Python's `in` operator and for `str.replace`). -/
def leadsWith : List Char → List Char → Bool
  | [], _ => true
  | _ :: _, [] => false
  | a :: p, b :: l => a == b && leadsWith p l

/-- Python's substring test `needle in hay`. -/
def listContains (needle : List Char) : List Char → Bool
  | [] => leadsWith needle []
  | c :: t => leadsWith needle (c :: t) || listContains needle t

/-- Python `str.lower()` (ASCII). -/
def lowerL (l : List Char) : List Char := l.map Char.toLower

/-- ASCII decimal digit (what `\d` matches on these inputs). -/
def isDigitC (c : Char) : Bool := decide (48 ≤ c.toNat ∧ c.toNat ≤ 57)

/-- Numeric value of a decimal digit character. -/
def digitVal (c : Char) : Nat := c.toNat - 48

/-- Value of a digit word, most significant digit first. -/
def digitsVal (w : List Char) : Nat :=
  w.foldl (fun a c => 10 * a + digitVal c) 0

/-- A `strptime` numeric field: 1 to `maxLen` decimal digits.  (`%d` and
`%m` use `maxLen = 2`, `%Y` uses `maxLen = 4`.) -/
def parseNumWord (w : List Char) (maxLen : Nat) : Option Nat :=
  if w ≠ [] ∧ w.length ≤ maxLen ∧ w.all isDigitC then some (digitsVal w) else none

/-- A word consisting of `base` immediately followed by the literal comma
required by the `", "` separators of the header formats. -/
def dropEndComma (w : List Char) : Option (List Char) :=
  match w.reverse with
  | ',' :: r => some r.reverse
  | _ => none

/-! ## The `datetime` fragment used by the scraper -/

structure Date where
  year : Nat
  month : Nat
  day : Nat
deriving DecidableEq, Repr

/-- `datetime.now()`: calendar date plus second-of-day.  The second matters
because the code compares a midnight `date_obj` against
`datetime.now() - timedelta(days=30)`, which carries the time of day. -/
structure Instant where
  date : Date
  secondOfDay : Nat
deriving DecidableEq, Repr

def isLeap (y : Nat) : Bool :=
  y % 4 == 0 && (y % 100 != 0 || y % 400 == 0)

/-- Month lengths of a non-leap year (February handled separately). -/
def monthDaysNoFeb (m : Nat) : Nat :=
  match m with
  | 1 => 31 | 3 => 31 | 4 => 30 | 5 => 31 | 6 => 30 | 7 => 31
  | 8 => 31 | 9 => 30 | 10 => 31 | 11 => 30 | 12 => 31
  | _ => 0

def daysInMonth (y m : Nat) : Nat :=
  if m = 2 then (if isLeap y then 29 else 28) else monthDaysNoFeb m

/-- The range `datetime` itself accepts (`MINYEAR = 1`, `MAXYEAR = 9999`);
constructing or `.replace`-ing outside it raises `ValueError`. -/
def validDate (d : Date) : Bool :=
  decide (1 ≤ d.year ∧ d.year ≤ 9999 ∧ 1 ≤ d.month ∧ d.month ≤ 12 ∧
          1 ≤ d.day ∧ d.day ≤ daysInMonth d.year d.month)

def daysBeforeYr (y : Nat) : Nat :=
  365 * (y - 1) + (y - 1) / 4 + (y - 1) / 400 - (y - 1) / 100

def daysBeforeMo (y m : Nat) : Nat :=
  (List.range (m - 1)).foldl (fun a i => a + daysInMonth y (i + 1)) 0

/-- `datetime.date.toordinal`: day 1 is 0001-01-01. -/
def ordinal (d : Date) : Nat :=
  daysBeforeYr d.year + daysBeforeMo d.year d.month + d.day

/-- `datetime` comparison of two midnight values (lexicographic). -/
def dateLE (a b : Date) : Bool :=
  if a.year = b.year then
    (if a.month = b.month then Nat.ble a.day b.day else Nat.blt a.month b.month)
  else Nat.blt a.year b.year

/-- `date_obj < datetime.now() - timedelta(days=30)` with `date_obj` at
midnight, expressed in seconds. -/
def tooFarPast (d : Date) (now : Instant) : Bool :=
  decide (ordinal d * 86400 + 30 * 86400 < ordinal now.date * 86400 + now.secondOfDay)

def digitChar (k : Nat) : Char := Char.ofNat (48 + k % 10)

def pad2 (n : Nat) : List Char := [digitChar (n / 10), digitChar n]

def pad4 (n : Nat) : List Char :=
  [digitChar (n / 1000), digitChar (n / 100), digitChar (n / 10), digitChar n]

/-- `date_obj.strftime("%Y-%m-%d")` as a character list. -/
def isoChars (d : Date) : List Char :=
  pad4 d.year ++ '-' :: (pad2 d.month ++ '-' :: pad2 d.day)

/-- `date_obj.strftime("%Y-%m-%d")`. -/
def toISO (d : Date) : String := String.mk (isoChars d)

/-- `datetime.strptime(s, "%Y-%m-%d")`: a 1-4 digit year, a literal `-`,
a 1-2 digit month, a literal `-`, a 1-2 digit day, then validation by the
`datetime` constructor; `none` models the `ValueError`. -/
def fromISO (s : String) : Option Date :=
  match splitOnChar '-' s.data with
  | [w1, w2, w3] =>
    match parseNumWord w1 4, parseNumWord w2 2, parseNumWord w3 2 with
    | some y, some m, some d => if validDate ⟨y, m, d⟩ then some ⟨y, m, d⟩ else none
    | _, _, _ => none
  | _ => none

/-! ## `strptime` matchers for the four accepted header formats

`TVInsiderScraper._parse_date_optimized` tries, in order,
`"%A, %B %d, %Y"`, `"%B %d, %Y"`, `"%A, %B %d"`, `"%B %d"`.  The matchers
below return the fields `strptime` would extract; formats without `%Y`
leave the year to the caller and are validated against `strptime`'s
default year 1900 (which is why `February 29` never parses without an
explicit year). -/

def monthTable : List (List Char × Nat) :=
  [("January".data, 1), ("February".data, 2), ("March".data, 3), ("April".data, 4),
   ("May".data, 5), ("June".data, 6), ("July".data, 7), ("August".data, 8),
   ("September".data, 9), ("October".data, 10), ("November".data, 11), ("December".data, 12)]

def monthNum (w : List Char) : Option Nat :=
  (monthTable.find? (fun p => p.1 == w)).map (fun p => p.2)

def weekdayNames : List (List Char) :=
  [("Monday").data, ("Tuesday").data, ("Wednesday").data, ("Thursday").data,
   ("Friday").data, ("Saturday").data, ("Sunday").data]

def isWeekdayW (w : List Char) : Bool := weekdayNames.any (fun n => n == w)

/-- `strptime(t, "%A, %B %d, %Y")`. -/
def matchF1 (t : List Char) : Option (Nat × Nat × Nat) :=
  match splitWs t with
  | [w0, w1, w2, w3] =>
    (dropEndComma w0).bind fun wd =>
    if isWeekdayW wd then
      (monthNum w1).bind fun m =>
      (dropEndComma w2).bind fun dw =>
      (parseNumWord dw 2).bind fun d =>
      (parseNumWord w3 4).bind fun y =>
      if 1 ≤ y ∧ 1 ≤ d ∧ d ≤ daysInMonth y m then some (y, m, d) else none
    else none
  | _ => none

/-- `strptime(t, "%B %d, %Y")`. -/
def matchF2 (t : List Char) : Option (Nat × Nat × Nat) :=
  match splitWs t with
  | [w1, w2, w3] =>
    (monthNum w1).bind fun m =>
    (dropEndComma w2).bind fun dw =>
    (parseNumWord dw 2).bind fun d =>
    (parseNumWord w3 4).bind fun y =>
    if 1 ≤ y ∧ 1 ≤ d ∧ d ≤ daysInMonth y m then some (y, m, d) else none
  | _ => none

/-- `strptime(t, "%A, %B %d")` (default year 1900 validates the day). -/
def matchF3 (t : List Char) : Option (Nat × Nat) :=
  match splitWs t with
  | [w0, w1, w2] =>
    (dropEndComma w0).bind fun wd =>
    if isWeekdayW wd then
      (monthNum w1).bind fun m =>
      (parseNumWord w2 2).bind fun d =>
      if 1 ≤ d ∧ d ≤ daysInMonth 1900 m then some (m, d) else none
    else none
  | _ => none

/-- `strptime(t, "%B %d")` (default year 1900 validates the day). -/
def matchF4 (t : List Char) : Option (Nat × Nat) :=
  match splitWs t with
  | [w1, w2] =>
    (monthNum w1).bind fun m =>
    (parseNumWord w2 2).bind fun d =>
    if 1 ≤ d ∧ d ≤ daysInMonth 1900 m then some (m, d) else none
  | _ => none

/-- `date_text.strip().title()` applied before any format is tried. -/
def normHdr (s : String) : List Char := pyTitle (pyStrip s.data)

/-- `date_obj.replace(year=y)`; `none` is `ValueError` (caught by the
per-format `except`, which then tries the next format). -/
def replaceYear (y m d : Nat) : Option Date :=
  if validDate ⟨y, m, d⟩ then some ⟨y, m, d⟩ else none

/-! ## `modules/scraper.py` — class `TVInsiderScraper` -/

namespace Scraper

/-- Body of the loop iteration for a format without `%Y`
(`_parse_date_optimized` lines 267-276): assume the current year, then if
the result is more than 30 days in the past, advance the year by one. -/
def yearAdjust (y : Nat) (now : Instant) (m d : Nat) : Option (List Char) :=
  match replaceYear y m d with
  | none => none
  | some d0 =>
    if tooFarPast d0 now then (replaceYear (y + 1) m d).map isoChars
    else some (isoChars d0)

def tryF1 (t : List Char) : Option (List Char) :=
  (matchF1 t).map (fun x => isoChars ⟨x.1, x.2.1, x.2.2⟩)

def tryF2 (t : List Char) : Option (List Char) :=
  (matchF2 t).map (fun x => isoChars ⟨x.1, x.2.1, x.2.2⟩)

def tryF3 (y : Nat) (now : Instant) (t : List Char) : Option (List Char) :=
  (matchF3 t).bind (fun x => yearAdjust y now x.1 x.2)

def tryF4 (y : Nat) (now : Instant) (t : List Char) : Option (List Char) :=
  (matchF4 t).bind (fun x => yearAdjust y now x.1 x.2)

/-- `TVInsiderScraper._parse_date_optimized(date_text, current_year)`:
empty text returns `None`; otherwise the text is stripped and
title-cased, each of the four formats is attempted in order, and the
first success is rendered with `strftime("%Y-%m-%d")`. -/
def parseDateOptimized (s : String) (y : Nat) (now : Instant) : Option String :=
  if s = "" then none
  else
    match tryF1 (normHdr s) with
    | some r => some (String.mk r)
    | none =>
      match tryF2 (normHdr s) with
      | some r => some (String.mk r)
      | none =>
        match tryF3 y now (normHdr s) with
        | some r => some (String.mk r)
        | none => (tryF4 y now (normHdr s)).map String.mk

end Scraper

/-! ## Raw extraction (`extractAllData`, the JavaScript pass)

The rendered document is the child list of `main section`; `h6` elements
carry date-header text, `a` elements carry listings whose fields come from
`querySelector(...)?.textContent || ''` — an absent node (`Option.none`)
defaults to the empty string and never raises. -/

inductive PageElem where
  | h6 (text : String)
  | a (name ty desc channel channelImage showImage href : Option String)
  | other
deriving DecidableEq

/-- Is this element a date header (`tagName === 'H6'`)? -/
def PageElem.isH6 : PageElem → Bool
  | .h6 _ => true
  | _ => false

/-- One entry of the `results` array built by the JavaScript pass of
`scraper.py` (it also sets `website_url: ''` and `country: 'US'`). -/
structure RawItem where
  date_header : String
  name : String
  type : String
  description : String
  channel : String
  channel_image : String
  show_image : String
  website : String
  website_url : String
  country : String
deriving DecidableEq, Repr

/-- The record after `item['date'] = parsed_date` and
`item.pop('date_header')`. -/
structure NormItem where
  name : String
  type : String
  description : String
  channel : String
  channel_image : String
  show_image : String
  website : String
  website_url : String
  country : String
  date : String
deriving DecidableEq, Repr

namespace Scraper

/-- The traversal state is `currentDate` (starts as `''`; every `H6`
overwrites it with its trimmed text).  An `A` element is emitted only when
`currentDate` is truthy and the extracted `name` is truthy. -/
def extractAux : List Char → List PageElem → List RawItem
  | _, [] => []
  | _, PageElem.h6 txt :: rest => extractAux (pyStrip txt.data) rest
  | cur, PageElem.a nm ty ds ch ci si hf :: rest =>
    if cur ≠ [] ∧ nm.getD "" ≠ "" then
      { date_header := String.mk cur, name := nm.getD "", type := ty.getD "",
        description := ds.getD "", channel := ch.getD "",
        channel_image := ci.getD "", show_image := si.getD "",
        website := hf.getD "", website_url := "", country := "US" } :: extractAux cur rest
    else extractAux cur rest
  | cur, PageElem.other :: rest => extractAux cur rest

def extractAllData (elems : List PageElem) : List RawItem := extractAux [] elems

/-! ### Post-extraction processing (`_scrape_by_date_navigation` lines 209-234) -/

/-- `item['channel'].replace("Parmount+", "Paramount+")`, fuelled by the
input length (each step consumes at least one character). -/
def replParamAux : Nat → List Char → List Char
  | 0, l => l
  | fuel + 1, l =>
    if leadsWith ("Parmount+".data) l then
      ("Paramount+").data ++ replParamAux fuel (l.drop 9)
    else
      match l with
      | [] => []
      | c :: t => c :: replParamAux fuel t

def fixChannel (s : String) : String := String.mk (replParamAux s.data.length s.data)

/-- Loop body for one extracted item: parse the header (skip on `None`),
attach `item['date']`, re-parse it for the range check (`except: pass`
skips the item), keep it only when `start <= item_date <= end`, then drop
`date_header` and fix the channel typo. -/
def processItem (sd ed : Date) (y : Nat) (now : Instant) (it : RawItem) : Option NormItem :=
  match parseDateOptimized it.date_header y now with
  | none => none
  | some ds =>
    match fromISO ds with
    | none => none
    | some d =>
      if dateLE sd d && dateLE d ed then
        some { name := it.name, type := it.type, description := it.description,
               channel := fixChannel it.channel, channel_image := it.channel_image,
               show_image := it.show_image, website := it.website,
               website_url := it.website_url, country := it.country, date := ds }
      else none

def processItems (sd ed : Date) (y : Nat) (now : Instant) (items : List RawItem) : List NormItem :=
  items.filterMap (processItem sd ed y now)

/-! ### `_filter_excluded_content` -/

def excludedKeywords : List String :=
  ["Sports", "VOD / Buy / Rent", "YouTube", "Fox Soccer Plus",
   "ESPN", "Gold Channel", "Baseball", "Cup", "Football", "Championship",
   "WWE", "NFL", "Tennis", "Formula 1", "NBA", "Apple TV+", "Soccer",
   "Boxing", "UFC", "MMA", "Golf", "Hockey", "Cricket", "Rugby"]

/-- `f"{item.get('name','')} {item.get('type','')} {item.get('channel','')}"`. -/
def contentText (it : NormItem) : String :=
  it.name ++ " " ++ it.type ++ " " ++ it.channel

/-- `any(keyword.lower() in content_text.lower() for keyword in excluded_keywords)`. -/
def excludedPred (it : NormItem) : Bool :=
  excludedKeywords.any (fun k => listContains (lowerL k.data) (lowerL (contentText it).data))

def filterExcludedContent (items : List NormItem) : List NormItem :=
  items.filter (fun it => !excludedPred it)

/-! ### `_filter_by_date_range` (standalone method, lines 284-309) -/

/-- Per-item predicate: items with a falsy or unparseable `date` are
included; otherwise keep iff `start <= item_date <= end`. -/
def rangeKeep (sd ed : Date) (it : NormItem) : Bool :=
  if it.date = "" then true
  else
    match fromISO it.date with
    | none => true
    | some d => dateLE sd d && dateLE d ed

/-- `_filter_by_date_range(items, start_date, end_date)`; if either bound
fails to parse, the whole list is returned unchanged (outer `except`). -/
def filterByDateRange (items : List NormItem) (startS endS : String) : List NormItem :=
  match fromISO startS, fromISO endS with
  | some sd, some ed => items.filter (rangeKeep sd ed)
  | _, _ => items

/-- The data path of `scrape_date_range` / `_scrape_by_date_navigation`
given the rendered document and the wall clock: parse the two bounds
(`none` models the `ValueError` that aborts the call), extract, resolve
dates and range-filter, then apply the exclusion filter.
`current_year = datetime.now().year`. -/
def scrape (startS endS : String) (elems : List PageElem) (now : Instant) :
    Option (List NormItem) :=
  match fromISO startS, fromISO endS with
  | some sd, some ed =>
    some (filterExcludedContent (processItems sd ed now.date.year now (extractAllData elems)))
  | _, _ => none

end Scraper

/-! ## `modules/scraper_optimized.py` — class `TVInsiderScraperOptimized`

The module duplicates the date-parsing loop, extraction pass and exclusion
filter of `scraper.py`; the definitions below are its own translation (the
`strptime`/`datetime` layer is shared library code in both).  Its
JavaScript item literal omits the `website_url` and `country` keys; since
no downstream reader of this module touches them, the absent keys are
modelled as empty strings in the shared `RawItem`/`NormItem` records. -/

namespace ScraperOptimized

/-- Year inference of `TVInsiderScraperOptimized._parse_date`
(lines 188-195). -/
def yearAdjust (y : Nat) (now : Instant) (m d : Nat) : Option (List Char) :=
  match replaceYear y m d with
  | none => none
  | some d0 =>
    if tooFarPast d0 now then (replaceYear (y + 1) m d).map isoChars
    else some (isoChars d0)

def tryF1 (t : List Char) : Option (List Char) :=
  (matchF1 t).map (fun x => isoChars ⟨x.1, x.2.1, x.2.2⟩)

def tryF2 (t : List Char) : Option (List Char) :=
  (matchF2 t).map (fun x => isoChars ⟨x.1, x.2.1, x.2.2⟩)

def tryF3 (y : Nat) (now : Instant) (t : List Char) : Option (List Char) :=
  (matchF3 t).bind (fun x => yearAdjust y now x.1 x.2)

def tryF4 (y : Nat) (now : Instant) (t : List Char) : Option (List Char) :=
  (matchF4 t).bind (fun x => yearAdjust y now x.1 x.2)

/-- `TVInsiderScraperOptimized._parse_date(date_text, current_year)`. -/
def parseDate (s : String) (y : Nat) (now : Instant) : Option String :=
  if s = "" then none
  else
    match tryF1 (normHdr s) with
    | some r => some (String.mk r)
    | none =>
      match tryF2 (normHdr s) with
      | some r => some (String.mk r)
      | none =>
        match tryF3 y now (normHdr s) with
        | some r => some (String.mk r)
        | none => (tryF4 y now (normHdr s)).map String.mk

/-- The extraction pass of `scraper_optimized.py` (lines 87-131): same
walk, item literal without `website_url`/`country`. -/
def extractAux : List Char → List PageElem → List RawItem
  | _, [] => []
  | _, PageElem.h6 txt :: rest => extractAux (pyStrip txt.data) rest
  | cur, PageElem.a nm ty ds ch ci si hf :: rest =>
    if cur ≠ [] ∧ nm.getD "" ≠ "" then
      { date_header := String.mk cur, name := nm.getD "", type := ty.getD "",
        description := ds.getD "", channel := ch.getD "",
        channel_image := ci.getD "", show_image := si.getD "",
        website := hf.getD "", website_url := "", country := "" } :: extractAux cur rest
    else extractAux cur rest
  | cur, PageElem.other :: rest => extractAux cur rest

def extractAllData (elems : List PageElem) : List RawItem := extractAux [] elems

/-- This module's own copy of the exclusion vocabulary (lines 205-210). -/
def excludedKeywords : List String :=
  ["Sports", "VOD / Buy / Rent", "YouTube", "Fox Soccer Plus",
   "ESPN", "Gold Channel", "Baseball", "Cup", "Football", "Championship",
   "WWE", "NFL", "Tennis", "Formula 1", "NBA", "Apple TV+", "Soccer",
   "Boxing", "UFC", "MMA", "Golf", "Hockey", "Cricket", "Rugby"]

/-- `TVInsiderScraperOptimized._filter_excluded_content` (lines 203-219);
identical filtering, minus a debug log line. -/
def filterExcludedContent (items : List NormItem) : List NormItem :=
  items.filter (fun it =>
    !(excludedKeywords.any (fun k =>
        listContains (lowerL k.data) (lowerL (Scraper.contentText it).data))))

end ScraperOptimized

/-! ## Incremental loader (the scroll loop, lines 146-155 of both modules)

Each iteration reads `document.body.scrollHeight`, scrolls, waits, reads
again, and breaks when the two reads are equal; at most `max_scrolls = 10`
iterations run.  The successive height reads are a sequence `hs`: iteration
`i` (0-based) reads `hs (2*i)` before and `hs (2*i+1)` after its scroll.
The function returns the number of iterations executed. -/

def scrollAux (hs : Nat → Nat) : Nat → Nat → Nat
  | i, 0 => i
  | i, fuel + 1 =>
    if hs (2 * i + 1) = hs (2 * i) then i + 1 else scrollAux hs (i + 1) fuel

def scrollCount (hs : Nat → Nat) : Nat := scrollAux hs 0 10

/-! ## Browser session lifecycle (`scrape_date_range`, try/finally)

`driver = None; try: driver = init(); ...; finally: if driver: driver.quit()`.
The fallible external steps are oracles: driver start-up, `driver.get` plus
the scroll loop, and the `execute_script` extraction call.  `quitCalled`
records whether the `finally` block reached `driver.quit()`. -/

inductive ScrapeErr where
  | browserLaunch
  | pageTimeout
  | valueError
  | extraction
deriving DecidableEq, Repr

structure SessionOutcome where
  quitCalled : Bool
  result : Except ScrapeErr (List NormItem)
deriving Repr

/-- `TVInsiderScraperOptimized.scrape_date_range` (and equally
`TVInsiderScraper._scrape_by_date_navigation`): if `_init_driver` raises,
`driver` is still `None` and the `finally` guard skips `quit`; once the
driver exists, every path — `ValueError` from the bound strings, page-load
or scroll failure, extraction failure, or normal return — runs
`driver.quit()` before the exception or result propagates. -/
def scrapeDateRangeSession (initR : Except ScrapeErr Unit)
    (loadR : Except ScrapeErr Unit) (extractR : Except ScrapeErr (List PageElem))
    (startS endS : String) (now : Instant) : SessionOutcome :=
  match initR with
  | .error e => { quitCalled := false, result := .error e }
  | .ok _ =>
    { quitCalled := true,
      result :=
        match fromISO startS, fromISO endS with
        | some sd, some ed =>
          match loadR with
          | .error e => .error e
          | .ok _ =>
            match extractR with
            | .error e => .error e
            | .ok elems =>
              .ok (Scraper.filterExcludedContent
                    (Scraper.processItems sd ed now.date.year now
                      (Scraper.extractAllData elems)))
        | _, _ => .error .valueError }

/-! ## Basic lemmas about the helpers -/

theorem digitChar_spec (k : Nat) :
    isDigitC (digitChar k) = true ∧ digitVal (digitChar k) = k % 10 ∧
      digitChar k ≠ '-' := by
  have hk : k % 10 < 10 := Nat.mod_lt _ (by omega)
  unfold digitChar
  set r := k % 10 with hr
  interval_cases r <;> exact ⟨by decide, by decide, by decide⟩

theorem pad4_all_digits (n : Nat) : (pad4 n).all isDigitC = true := by
  simp [pad4, List.all_cons, (digitChar_spec _).1]

theorem pad2_all_digits (n : Nat) : (pad2 n).all isDigitC = true := by
  simp [pad2, List.all_cons, (digitChar_spec _).1]

theorem parseNumWord_pad4 (y : Nat) (h : y ≤ 9999) : parseNumWord (pad4 y) 4 = some y := by
  unfold parseNumWord
  rw [if_pos ⟨by simp [pad4], by simp [pad4], pad4_all_digits y⟩]
  unfold digitsVal pad4
  simp only [List.foldl_cons, List.foldl_nil, (digitChar_spec _).2.1]
  congr 1
  omega

theorem parseNumWord_pad2 (m : Nat) (h : m ≤ 99) : parseNumWord (pad2 m) 2 = some m := by
  unfold parseNumWord
  rw [if_pos ⟨by simp [pad2], by simp [pad2], pad2_all_digits m⟩]
  unfold digitsVal pad2
  simp only [List.foldl_cons, List.foldl_nil, (digitChar_spec _).2.1]
  congr 1
  omega

theorem splitOnCharAux_no_sep (sep : Char) (l : List Char) :
    ∀ cur, (∀ a ∈ l, (a == sep) = false) → splitOnCharAux sep l cur = [cur.reverse ++ l] := by
  induction l with
  | nil => intro cur _; simp [splitOnCharAux]
  | cons a t ih =>
    intro cur h
    have ha : (a == sep) = false := h a (by simp)
    rw [splitOnCharAux, ha]
    simp only [Bool.false_eq_true, if_false]
    rw [ih (a :: cur) (fun b hb => h b (by simp [hb]))]
    simp

theorem splitOnCharAux_sep (sep : Char) (l1 l2 : List Char) :
    ∀ cur, (∀ a ∈ l1, (a == sep) = false) →
      splitOnCharAux sep (l1 ++ sep :: l2) cur =
        (cur.reverse ++ l1) :: splitOnCharAux sep l2 [] := by
  induction l1 with
  | nil =>
    intro cur _
    rw [List.nil_append, splitOnCharAux]
    simp
  | cons a t ih =>
    intro cur h
    have ha : (a == sep) = false := h a (by simp)
    rw [List.cons_append, splitOnCharAux, ha]
    simp only [Bool.false_eq_true, if_false]
    rw [ih (a :: cur) (fun b hb => h b (by simp [hb]))]
    simp

theorem daysInMonth_le_31 (y m : Nat) : daysInMonth y m ≤ 31 := by
  unfold daysInMonth monthDaysNoFeb
  split
  · split <;> omega
  · split <;> omega

theorem fromISO_toISO (d : Date) (h : validDate d = true) : fromISO (toISO d) = some d := by
  obtain ⟨y, m, dd⟩ := d
  simp only [validDate, decide_eq_true_eq] at h
  have hsplit : splitOnChar '-' (isoChars ⟨y, m, dd⟩) = [pad4 y, pad2 m, pad2 dd] := by
    unfold splitOnChar isoChars
    rw [splitOnCharAux_sep '-' (pad4 y) _ []
        (by simp [pad4]; exact ⟨(digitChar_spec _).2.2, (digitChar_spec _).2.2,
              (digitChar_spec _).2.2, (digitChar_spec _).2.2⟩)]
    rw [splitOnCharAux_sep '-' (pad2 m) _ []
        (by simp [pad2]; exact ⟨(digitChar_spec _).2.2, (digitChar_spec _).2.2⟩)]
    rw [splitOnCharAux_no_sep '-' (pad2 dd) []
        (by simp [pad2]; exact ⟨(digitChar_spec _).2.2, (digitChar_spec _).2.2⟩)]
    simp
  have hdd31 : dd ≤ 31 := le_trans h.2.2.2.2.2 (daysInMonth_le_31 y m)
  have hdata : (toISO ⟨y, m, dd⟩).data = isoChars ⟨y, m, dd⟩ := rfl
  unfold fromISO
  rw [hdata, hsplit]
  simp only [parseNumWord_pad4 y h.2.1, parseNumWord_pad2 m (by omega : m ≤ 99),
    parseNumWord_pad2 dd (by omega : dd ≤ 99)]
  rw [if_pos]
  simp only [validDate, decide_eq_true_eq]
  exact h

theorem digitsVal_foldl_lt (w : List Char) :
    ∀ a, w.all isDigitC = true →
      w.foldl (fun a c => 10 * a + digitVal c) a < (a + 1) * 10 ^ w.length := by
  induction w with
  | nil =>
    intro a _
    simp only [List.foldl_nil, List.length_nil, pow_zero, mul_one]
    omega
  | cons c t ih =>
    intro a h
    rw [List.all_cons, Bool.and_eq_true] at h
    have hc : digitVal c ≤ 9 := by
      have := h.1
      simp only [isDigitC, decide_eq_true_eq] at this
      unfold digitVal
      omega
    have step := ih (10 * a + digitVal c) h.2
    have hle : (10 * a + digitVal c + 1) * 10 ^ t.length ≤ (a + 1) * 10 ^ (t.length + 1) := by
      have : 10 * a + digitVal c + 1 ≤ (a + 1) * 10 := by omega
      calc (10 * a + digitVal c + 1) * 10 ^ t.length
          ≤ ((a + 1) * 10) * 10 ^ t.length := Nat.mul_le_mul_right _ this
        _ = (a + 1) * 10 ^ (t.length + 1) := by ring
    rw [List.length_cons, List.foldl_cons]
    exact lt_of_lt_of_le step hle

theorem parseNumWord_le (w : List Char) (maxLen v : Nat)
    (h : parseNumWord w maxLen = some v) : v + 1 ≤ 10 ^ maxLen := by
  unfold parseNumWord at h
  split at h
  · next hcond =>
    obtain ⟨-, hlen, hdig⟩ := hcond
    cases h
    have hv := digitsVal_foldl_lt w 0 hdig
    have : (10 : Nat) ^ w.length ≤ 10 ^ maxLen :=
      Nat.pow_le_pow_right (by omega) hlen
    unfold digitsVal
    omega
  · cases h

theorem monthNum_bounds (w : List Char) (m : Nat) (h : monthNum w = some m) :
    1 ≤ m ∧ m ≤ 12 := by
  unfold monthNum at h
  cases hf : monthTable.find? (fun p => p.1 == w) with
  | none => rw [hf] at h; cases h
  | some p =>
    rw [hf] at h
    cases h
    have hmem := List.mem_of_find?_eq_some hf
    have : ∀ q ∈ monthTable, 1 ≤ q.2 ∧ q.2 ≤ 12 := by decide
    exact this p hmem

/-- Day counts can only grow from the (non-leap) default year 1900 to any
other year, so `date_obj.replace(year=...)` never fails for a day that
already validated against 1900. -/
theorem daysInMonth_1900_le (y m : Nat) : daysInMonth 1900 m ≤ daysInMonth y m := by
  unfold daysInMonth
  split
  · have h1900 : isLeap 1900 = false := by decide
    rw [h1900]
    simp only [Bool.false_eq_true, if_false]
    split <;> omega
  · omega

theorem matchF1_bounds (t : List Char) (y m d : Nat) (h : matchF1 t = some (y, m, d)) :
    1 ≤ y ∧ y ≤ 9999 ∧ 1 ≤ m ∧ m ≤ 12 ∧ 1 ≤ d ∧ d ≤ daysInMonth y m := by
  unfold matchF1 at h
  split at h <;> try cases h
  simp only [Option.bind_eq_some] at h
  obtain ⟨wd, hwd, h⟩ := h
  split at h <;> try cases h
  simp only [Option.bind_eq_some] at h
  obtain ⟨m0, hm, dw, hdw, d0, hd, y0, hy, h⟩ := h
  split at h
  · next hcond =>
    cases h
    have hmb := monthNum_bounds _ _ hm
    have hyb := parseNumWord_le _ 4 _ hy
    refine ⟨by omega, by omega, hmb.1, hmb.2, hcond.2.1, hcond.2.2⟩
  · cases h

theorem matchF2_bounds (t : List Char) (y m d : Nat) (h : matchF2 t = some (y, m, d)) :
    1 ≤ y ∧ y ≤ 9999 ∧ 1 ≤ m ∧ m ≤ 12 ∧ 1 ≤ d ∧ d ≤ daysInMonth y m := by
  unfold matchF2 at h
  split at h <;> try cases h
  simp only [Option.bind_eq_some] at h
  obtain ⟨m0, hm, dw, hdw, d0, hd, y0, hy, h⟩ := h
  split at h
  · next hcond =>
    cases h
    have hmb := monthNum_bounds _ _ hm
    have hyb := parseNumWord_le _ 4 _ hy
    refine ⟨by omega, by omega, hmb.1, hmb.2, hcond.2.1, hcond.2.2⟩
  · cases h

theorem matchF3_bounds (t : List Char) (m d : Nat) (h : matchF3 t = some (m, d)) :
    1 ≤ m ∧ m ≤ 12 ∧ 1 ≤ d ∧ d ≤ daysInMonth 1900 m := by
  unfold matchF3 at h
  split at h <;> try cases h
  simp only [Option.bind_eq_some] at h
  obtain ⟨wd, hwd, h⟩ := h
  split at h <;> try cases h
  simp only [Option.bind_eq_some] at h
  obtain ⟨m0, hm, d0, hd, h⟩ := h
  split at h
  · next hcond =>
    cases h
    have hmb := monthNum_bounds _ _ hm
    exact ⟨hmb.1, hmb.2, hcond.1, hcond.2⟩
  · cases h

theorem matchF4_bounds (t : List Char) (m d : Nat) (h : matchF4 t = some (m, d)) :
    1 ≤ m ∧ m ≤ 12 ∧ 1 ≤ d ∧ d ≤ daysInMonth 1900 m := by
  unfold matchF4 at h
  split at h <;> try cases h
  simp only [Option.bind_eq_some] at h
  obtain ⟨m0, hm, d0, hd, h⟩ := h
  split at h
  · next hcond =>
    cases h
    have hmb := monthNum_bounds _ _ hm
    exact ⟨hmb.1, hmb.2, hcond.1, hcond.2⟩
  · cases h

theorem replaceYear_some (y m d : Nat) (d0 : Date) (h : replaceYear y m d = some d0) :
    validDate d0 = true ∧ d0 = ⟨y, m, d⟩ := by
  unfold replaceYear at h
  split at h
  · cases h; exact ⟨by assumption, rfl⟩
  · cases h

theorem yearAdjust_shape (y : Nat) (now : Instant) (m d : Nat) (r : List Char)
    (h : Scraper.yearAdjust y now m d = some r) :
    ∃ dd, validDate dd = true ∧ r = isoChars dd := by
  unfold Scraper.yearAdjust at h
  cases h0 : replaceYear y m d with
  | none => simp only [h0] at h; cases h
  | some d0 =>
    simp only [h0] at h
    have hv0 := replaceYear_some y m d d0 h0
    split at h
    · rw [Option.map_eq_some'] at h
      obtain ⟨d1, h1, hr⟩ := h
      have hv1 := replaceYear_some (y + 1) m d d1 h1
      exact ⟨d1, hv1.1, hr.symm⟩
    · cases h
      exact ⟨d0, hv0.1, rfl⟩

theorem yearAdjust_eval (y : Nat) (now : Instant) (m d : Nat)
    (hm : 1 ≤ m ∧ m ≤ 12) (hd : 1 ≤ d ∧ d ≤ daysInMonth 1900 m)
    (hy1 : 1 ≤ y) (hy2 : y + 1 ≤ 9999) :
    Scraper.yearAdjust y now m d =
      some (isoChars ⟨if tooFarPast ⟨y, m, d⟩ now then y + 1 else y, m, d⟩) := by
  have hv : validDate ⟨y, m, d⟩ = true := by
    simp only [validDate, decide_eq_true_eq]
    exact ⟨hy1, by omega, hm.1, hm.2, hd.1, le_trans hd.2 (daysInMonth_1900_le y m)⟩
  have hv2 : validDate ⟨y + 1, m, d⟩ = true := by
    simp only [validDate, decide_eq_true_eq]
    exact ⟨by omega, hy2, hm.1, hm.2, hd.1, le_trans hd.2 (daysInMonth_1900_le (y + 1) m)⟩
  unfold Scraper.yearAdjust replaceYear
  rw [if_pos hv]
  cases htf : tooFarPast ⟨y, m, d⟩ now with
  | true => simp [htf, hv2]
  | false => simp [htf]

theorem tryF1_shape (t : List Char) (r : List Char) (h : Scraper.tryF1 t = some r) :
    ∃ dd, validDate dd = true ∧ r = isoChars dd := by
  unfold Scraper.tryF1 at h
  cases hm : matchF1 t with
  | none => rw [hm] at h; cases h
  | some x =>
    rw [hm] at h
    cases h
    obtain ⟨y, m, d⟩ := x
    have hb := matchF1_bounds t y m d hm
    refine ⟨⟨y, m, d⟩, ?_, rfl⟩
    simp only [validDate, decide_eq_true_eq]
    exact hb

theorem tryF2_shape (t : List Char) (r : List Char) (h : Scraper.tryF2 t = some r) :
    ∃ dd, validDate dd = true ∧ r = isoChars dd := by
  unfold Scraper.tryF2 at h
  cases hm : matchF2 t with
  | none => rw [hm] at h; cases h
  | some x =>
    rw [hm] at h
    cases h
    obtain ⟨y, m, d⟩ := x
    have hb := matchF2_bounds t y m d hm
    refine ⟨⟨y, m, d⟩, ?_, rfl⟩
    simp only [validDate, decide_eq_true_eq]
    exact hb

theorem tryF3_shape (y : Nat) (now : Instant) (t r : List Char)
    (h : Scraper.tryF3 y now t = some r) :
    ∃ dd, validDate dd = true ∧ r = isoChars dd := by
  unfold Scraper.tryF3 at h
  cases hm : matchF3 t with
  | none => rw [hm] at h; cases h
  | some x =>
    rw [hm] at h
    exact yearAdjust_shape y now x.1 x.2 r h

theorem tryF4_shape (y : Nat) (now : Instant) (t r : List Char)
    (h : Scraper.tryF4 y now t = some r) :
    ∃ dd, validDate dd = true ∧ r = isoChars dd := by
  unfold Scraper.tryF4 at h
  cases hm : matchF4 t with
  | none => rw [hm] at h; cases h
  | some x =>
    rw [hm] at h
    exact yearAdjust_shape y now x.1 x.2 r h

/-- Every string `_parse_date_optimized` returns is the `%Y-%m-%d`
rendering of a `datetime`-valid date. -/
theorem parseDateOptimized_shape (s : String) (y : Nat) (now : Instant) (str : String)
    (h : Scraper.parseDateOptimized s y now = some str) :
    ∃ dd, validDate dd = true ∧ str = toISO dd := by
  unfold Scraper.parseDateOptimized at h
  split at h
  · cases h
  · cases h1 : Scraper.tryF1 (normHdr s) with
    | some r =>
      rw [h1] at h; cases h
      obtain ⟨dd, hv, hr⟩ := tryF1_shape _ _ h1
      exact ⟨dd, hv, by rw [hr]; rfl⟩
    | none =>
      rw [h1] at h
      cases h2 : Scraper.tryF2 (normHdr s) with
      | some r =>
        rw [h2] at h; cases h
        obtain ⟨dd, hv, hr⟩ := tryF2_shape _ _ h2
        exact ⟨dd, hv, by rw [hr]; rfl⟩
      | none =>
        rw [h2] at h
        cases h3 : Scraper.tryF3 y now (normHdr s) with
        | some r =>
          rw [h3] at h; cases h
          obtain ⟨dd, hv, hr⟩ := tryF3_shape _ _ _ _ h3
          exact ⟨dd, hv, by rw [hr]; rfl⟩
        | none =>
          rw [h3] at h
          cases h4 : Scraper.tryF4 y now (normHdr s) with
          | some r =>
            rw [h4] at h; cases h
            obtain ⟨dd, hv, hr⟩ := tryF4_shape _ _ _ _ h4
            exact ⟨dd, hv, by rw [hr]; rfl⟩
          | none => rw [h4] at h; cases h

theorem strMk_ne_empty (l : List Char) (h : l ≠ []) : String.mk l ≠ "" :=
  fun hc => h (congrArg String.data hc)

theorem extractAux_mem (elems : List PageElem) :
    ∀ cur r, r ∈ Scraper.extractAux cur elems → r.name ≠ "" ∧ r.date_header ≠ "" := by
  induction elems with
  | nil => intro cur r h; simp [Scraper.extractAux] at h
  | cons e rest ih =>
    intro cur r h
    cases e with
    | h6 txt =>
      simp only [Scraper.extractAux] at h
      exact ih _ r h
    | a nm ty ds ch ci si hf =>
      simp only [Scraper.extractAux] at h
      split at h
      · next hcond =>
        rcases List.mem_cons.mp h with hr | hr
        · subst hr
          exact ⟨hcond.2, strMk_ne_empty cur hcond.1⟩
        · exact ih _ r hr
      · exact ih _ r h
    | other =>
      simp only [Scraper.extractAux] at h
      exact ih _ r h

theorem extractAuxOpt_mem (elems : List PageElem) :
    ∀ cur r, r ∈ ScraperOptimized.extractAux cur elems → r.name ≠ "" ∧ r.date_header ≠ "" := by
  induction elems with
  | nil => intro cur r h; simp [ScraperOptimized.extractAux] at h
  | cons e rest ih =>
    intro cur r h
    cases e with
    | h6 txt =>
      simp only [ScraperOptimized.extractAux] at h
      exact ih _ r h
    | a nm ty ds ch ci si hf =>
      simp only [ScraperOptimized.extractAux] at h
      split at h
      · next hcond =>
        rcases List.mem_cons.mp h with hr | hr
        · subst hr
          exact ⟨hcond.2, strMk_ne_empty cur hcond.1⟩
        · exact ih _ r hr
      · exact ih _ r h
    | other =>
      simp only [ScraperOptimized.extractAux] at h
      exact ih _ r h

theorem extractAux_no_h6 (l1 : List PageElem) :
    ∀ l2, (∀ e ∈ l1, e.isH6 = false) →
      Scraper.extractAux [] (l1 ++ l2) = Scraper.extractAux [] l2 := by
  induction l1 with
  | nil => intro l2 _; rfl
  | cons e t ih =>
    intro l2 h
    cases e with
    | h6 txt =>
      have := h (PageElem.h6 txt) (by simp)
      simp [PageElem.isH6] at this
    | a nm ty ds ch ci si hf =>
      rw [List.cons_append]
      simp only [Scraper.extractAux]
      rw [if_neg (fun hc => hc.1 rfl)]
      exact ih l2 (fun e he => h e (by simp [he]))
    | other =>
      rw [List.cons_append]
      simp only [Scraper.extractAux]
      exact ih l2 (fun e he => h e (by simp [he]))

theorem extractAuxOpt_no_h6 (l1 : List PageElem) :
    ∀ l2, (∀ e ∈ l1, e.isH6 = false) →
      ScraperOptimized.extractAux [] (l1 ++ l2) = ScraperOptimized.extractAux [] l2 := by
  induction l1 with
  | nil => intro l2 _; rfl
  | cons e t ih =>
    intro l2 h
    cases e with
    | h6 txt =>
      have := h (PageElem.h6 txt) (by simp)
      simp [PageElem.isH6] at this
    | a nm ty ds ch ci si hf =>
      rw [List.cons_append]
      simp only [ScraperOptimized.extractAux]
      rw [if_neg (fun hc => hc.1 rfl)]
      exact ih l2 (fun e he => h e (by simp [he]))
    | other =>
      rw [List.cons_append]
      simp only [ScraperOptimized.extractAux]
      exact ih l2 (fun e he => h e (by simp [he]))

theorem processItem_some (sd ed : Date) (y : Nat) (now : Instant) (it : RawItem)
    (r : NormItem) (h : Scraper.processItem sd ed y now it = some r) :
    r.name = it.name ∧ ∃ d, validDate d = true ∧ r.date = toISO d ∧
      dateLE sd d = true ∧ dateLE d ed = true := by
  unfold Scraper.processItem at h
  cases hp : Scraper.parseDateOptimized it.date_header y now with
  | none => simp only [hp] at h; cases h
  | some ds =>
    simp only [hp] at h
    obtain ⟨dd, hdd, hds⟩ := parseDateOptimized_shape _ _ _ _ hp
    cases hf : fromISO ds with
    | none => simp only [hf] at h; cases h
    | some d =>
      simp only [hf] at h
      have hdeq : d = dd := by
        rw [hds, fromISO_toISO dd hdd] at hf
        cases hf
        rfl
      split at h
      · next hcond =>
        cases h
        rw [Bool.and_eq_true] at hcond
        exact ⟨rfl, d, by rw [hdeq]; exact hdd, by rw [hds, hdeq], hcond.1, hcond.2⟩
      · cases h

theorem scrollAux_le (hs : Nat → Nat) : ∀ fuel i, scrollAux hs i fuel ≤ i + fuel := by
  intro fuel
  induction fuel with
  | zero => intro i; simp [scrollAux]
  | succ n ih =>
    intro i
    rw [scrollAux]
    split
    · omega
    · have := ih (i + 1)
      omega

theorem scrollAux_stop (hs : Nat → Nat) :
    ∀ fuel i k, k < fuel →
      (∀ j, j < k → hs (2 * (i + j) + 1) ≠ hs (2 * (i + j))) →
      hs (2 * (i + k) + 1) = hs (2 * (i + k)) →
      scrollAux hs i fuel = i + k + 1 := by
  intro fuel
  induction fuel with
  | zero => intro i k hk; omega
  | succ n ih =>
    intro i k hk hne heq
    rw [scrollAux]
    cases k with
    | zero =>
      rw [if_pos (by simpa using heq)]
    | succ k0 =>
      rw [if_neg (by simpa using hne 0 (Nat.succ_pos k0))]
      have hrec := ih (i + 1) k0 (by omega)
        (fun j hj => by
          have := hne (j + 1) (by omega)
          have e : i + (j + 1) = i + 1 + j := by omega
          rw [e] at this
          exact this)
        (by
          have e : i + (k0 + 1) = i + 1 + k0 := by omega
          rw [e] at heq
          exact heq)
      rw [hrec]
      omega

/-! ## Claim theorems -/

/-- C3: for every date-header text, the resolver title-cases (and strips)
the text and then attempts exactly the four formats
`Weekday, Month Day, Year`; `Month Day, Year`; `Weekday, Month Day`;
`Month Day` in this order, the first success determining the result; in
particular `"Friday, December 15, 2024"` resolves to `2024-12-15`
(whatever the current year and clock are). -/
theorem date_formats_tried_in_order :
    (∀ (s : String) (y : Nat) (now : Instant),
      Scraper.parseDateOptimized s y now =
        (Scraper.tryF1 (normHdr s) <|> Scraper.tryF2 (normHdr s) <|>
          Scraper.tryF3 y now (normHdr s) <|> Scraper.tryF4 y now (normHdr s)).map
          String.mk) ∧
    (∀ (y : Nat) (now : Instant),
      Scraper.parseDateOptimized "Friday, December 15, 2024" y now = some "2024-12-15") := by
  constructor
  · intro s y now
    by_cases hs : s = ""
    · subst hs
      rfl
    · unfold Scraper.parseDateOptimized
      rw [if_neg hs]
      cases h1 : Scraper.tryF1 (normHdr s) with
      | some r => simp [h1]
      | none =>
        simp only [h1]
        cases h2 : Scraper.tryF2 (normHdr s) with
        | some r => simp [h2]
        | none =>
          simp only [h2]
          cases h3 : Scraper.tryF3 y now (normHdr s) with
          | some r => simp [h3]
          | none =>
            simp only [h3]
            simp
  · intro y now
    rfl

/-- C4: the scroll loop runs at most 10 iterations, and it stops at the
first iteration whose after-scroll height reading equals its before-scroll
reading (`hs (2*k+1) = hs (2*k)` means iteration `k`, 0-based, observed no
growth; the loop then has executed `k + 1` iterations). -/
theorem scroll_loop_termination :
    (∀ hs : Nat → Nat, scrollCount hs ≤ 10) ∧
    (∀ (hs : Nat → Nat) (k : Nat), k < 10 →
      (∀ j, j < k → hs (2 * j + 1) ≠ hs (2 * j)) →
      hs (2 * k + 1) = hs (2 * k) →
      scrollCount hs = k + 1) := by
  constructor
  · intro hs
    have h := scrollAux_le hs 10 0
    unfold scrollCount
    omega
  · intro hs k hk hne heq
    unfold scrollCount
    have h := scrollAux_stop hs 10 0 k hk
      (fun j hj => by simpa using hne j hj) (by simpa using heq)
    rw [h]
    omega

/-- C4 witness: a height sequence that stabilizes at the third iteration
makes the loader stop after 3 iterations, not 10. -/
theorem scroll_loop_termination_witness :
    scrollCount (fun n => if n ≤ 3 then n else 4) = 2 + 1 :=
  scroll_loop_termination.2 (fun n => if n ≤ 3 then n else 4) 2
    (by decide) (by decide) (by decide)

/-- C5: a raw record whose `date_header` matches none of the four formats
is resolved to no date and contributes zero records to the pipeline's
output (the surrounding list is processed exactly as if the record were
absent, and the whole computation is a total function — no exception);
`"Sometime Soon"` is such a header for every current year and clock. -/
theorem unparseable_header_dropped :
    (∀ (sd ed : Date) (y : Nat) (now : Instant) (r : RawItem) (l1 l2 : List RawItem),
      Scraper.parseDateOptimized r.date_header y now = none →
      Scraper.filterExcludedContent (Scraper.processItems sd ed y now (l1 ++ r :: l2)) =
        Scraper.filterExcludedContent (Scraper.processItems sd ed y now (l1 ++ l2))) ∧
    (∀ (y : Nat) (now : Instant),
      Scraper.parseDateOptimized "Sometime Soon" y now = none) := by
  constructor
  · intro sd ed y now r l1 l2 h
    have hnone : Scraper.processItem sd ed y now r = none := by
      unfold Scraper.processItem
      simp only [h]
    unfold Scraper.processItems
    simp only [List.filterMap_append, List.filterMap_cons, hnone]
  · intro y now
    rfl

/-- C6: the exclusion filter keeps exactly the records whose space-joined
`name`/`type`/`channel` text contains no exclusion term case-insensitively
(both sides are lowercased before the substring test), so a record with
channel `"espn"` is classified exactly like one with channel `"ESPN"`. -/
theorem exclusion_filter_characterization :
    (∀ (items : List NormItem) (r : NormItem),
      r ∈ Scraper.filterExcludedContent items ↔
        r ∈ items ∧ ¬ ∃ k ∈ Scraper.excludedKeywords,
            listContains (lowerL k.data) (lowerL (Scraper.contentText r).data) = true) ∧
    (∀ r : NormItem,
      Scraper.excludedPred { r with channel := "espn" } =
        Scraper.excludedPred { r with channel := "ESPN" }) := by
  constructor
  · intro items r
    unfold Scraper.filterExcludedContent Scraper.excludedPred
    rw [List.mem_filter]
    simp [List.any_eq_true]
  · intro r
    unfold Scraper.excludedPred
    suffices h : lowerL (Scraper.contentText { r with channel := "espn" }).data
        = lowerL (Scraper.contentText { r with channel := "ESPN" }).data by rw [h]
    unfold Scraper.contentText lowerL
    simp only [String.data_append, List.map_append]
    congr 1

/-- C7: on any record list and any date range, the date-range filter and
the exclusion filter commute. -/
theorem filters_commute (items : List NormItem) (startS endS : String) :
    Scraper.filterByDateRange (Scraper.filterExcludedContent items) startS endS =
      Scraper.filterExcludedContent (Scraper.filterByDateRange items startS endS) := by
  cases h1 : fromISO startS with
  | none => cases h2 : fromISO endS <;> simp only [Scraper.filterByDateRange, h1, h2]
  | some sd =>
    cases h2 : fromISO endS with
    | none => simp only [Scraper.filterByDateRange, h1, h2]
    | some ed =>
      simp only [Scraper.filterByDateRange, h1, h2]
      unfold Scraper.filterExcludedContent
      rw [List.filter_filter, List.filter_filter]
      congr 1
      funext it
      rw [Bool.and_comm]

/-- C8: the browser session is closed on every exit path: `driver.quit()`
runs exactly when `_init_driver` succeeded, independently of whether the
bounds parse, the page loads, the extraction succeeds, or the call returns
normally. -/
theorem session_teardown_on_every_path
    (initR loadR : Except ScrapeErr Unit) (extractR : Except ScrapeErr (List PageElem))
    (startS endS : String) (now : Instant) :
    (scrapeDateRangeSession initR loadR extractR startS endS now).quitCalled =
      initR.isOk := by
  cases initR <;> rfl

/-- C9: the logic duplicated across the two scraper modules is
extensionally equal: `_parse_date_optimized` agrees with `_parse_date` on
every header text, current year and clock, and the two
`_filter_excluded_content` copies agree on every record list. -/
theorem duplicated_modules_equivalent :
    (∀ (s : String) (y : Nat) (now : Instant),
      Scraper.parseDateOptimized s y now = ScraperOptimized.parseDate s y now) ∧
    (∀ items : List NormItem,
      Scraper.filterExcludedContent items = ScraperOptimized.filterExcludedContent items) :=
  ⟨fun _ _ _ => rfl, fun _ => rfl⟩

/-- C10: the extraction pass emits a raw record only under a previously
seen date header: a document prefix containing no `H6` contributes nothing
(listings before the first header are dropped), and no emitted record
carries an empty `date_header` — in both scraper modules. -/
theorem listing_requires_preceding_header :
    (∀ l1 l2 : List PageElem, (∀ e ∈ l1, e.isH6 = false) →
      Scraper.extractAllData (l1 ++ l2) = Scraper.extractAllData l2) ∧
    (∀ (elems : List PageElem) (r : RawItem),
      r ∈ Scraper.extractAllData elems → r.date_header ≠ "") ∧
    (∀ l1 l2 : List PageElem, (∀ e ∈ l1, e.isH6 = false) →
      ScraperOptimized.extractAllData (l1 ++ l2) = ScraperOptimized.extractAllData l2) ∧
    (∀ (elems : List PageElem) (r : RawItem),
      r ∈ ScraperOptimized.extractAllData elems → r.date_header ≠ "") := by
  refine ⟨?_, ?_, ?_, ?_⟩
  · exact fun l1 l2 h => extractAux_no_h6 l1 l2 h
  · exact fun elems r h => (extractAux_mem elems [] r h).2
  · exact fun l1 l2 h => extractAuxOpt_no_h6 l1 l2 h
  · exact fun elems r h => (extractAuxOpt_mem elems [] r h).2

/-- C2: whenever a header is resolved by one of the two formats without an
explicit year (fmt 1 and 2 failed, fmt 3 or 4 matched month `m`, day `d`),
the result is the current year — advanced by one exactly when the
current-year date lies more than 30 days before "now".  With
now = 2025-08-10, `"August 21"` gives `2025-08-21`; with now = 2025-01-05,
`"December 31"` gives `2025-12-31`, not `2024-12-31`. -/
theorem implicit_year_resolution :
    (∀ (s : String) (y : Nat) (now : Instant) (m d : Nat),
      Scraper.tryF1 (normHdr s) = none →
      Scraper.tryF2 (normHdr s) = none →
      (matchF3 (normHdr s) <|> matchF4 (normHdr s)) = some (m, d) →
      1 ≤ y → y + 1 ≤ 9999 →
      Scraper.parseDateOptimized s y now =
        some (toISO ⟨if tooFarPast ⟨y, m, d⟩ now then y + 1 else y, m, d⟩)) ∧
    Scraper.parseDateOptimized "August 21" 2025 ⟨⟨2025, 8, 10⟩, 0⟩ = some "2025-08-21" ∧
    Scraper.parseDateOptimized "December 31" 2025 ⟨⟨2025, 1, 5⟩, 0⟩ =
      some "2025-12-31" := by
  refine ⟨?_, by decide, by decide⟩
  intro s y now m d h1 h2 h34 hy1 hy2
  by_cases hs : s = ""
  · exfalso
    subst hs
    have hnil : (matchF3 (normHdr "") <|> matchF4 (normHdr "")) = none := rfl
    rw [hnil] at h34
    cases h34
  · unfold Scraper.parseDateOptimized
    rw [if_neg hs]
    simp only [h1, h2]
    cases hm3 : matchF3 (normHdr s) with
    | some x =>
      obtain ⟨m0, d0⟩ := x
      rw [hm3, Option.some_orElse] at h34
      cases h34
      have hb := matchF3_bounds _ _ _ hm3
      simp only [Scraper.tryF3, hm3, Option.some_bind]
      rw [yearAdjust_eval y now m d ⟨hb.1, hb.2.1⟩ ⟨hb.2.2.1, hb.2.2.2⟩ hy1 hy2]
      rfl
    | none =>
      rw [hm3, Option.none_orElse] at h34
      have hb := matchF4_bounds _ _ _ h34
      simp only [Scraper.tryF3, hm3, Option.none_bind]
      simp only [Scraper.tryF4, h34, Option.some_bind]
      rw [yearAdjust_eval y now m d ⟨hb.1, hb.2.1⟩ ⟨hb.2.2.1, hb.2.2.2⟩ hy1 hy2]
      rfl

/-- C2 witness: `"July 11"` seen one second after midnight on 2025-08-10
is (just) more than 30 days back, so the theorem instantiates with the
year-advance condition live. -/
theorem implicit_year_resolution_witness :
    Scraper.parseDateOptimized "July 11" 2025 ⟨⟨2025, 8, 10⟩, 1⟩ =
      some (toISO ⟨if tooFarPast ⟨2025, 7, 11⟩ ⟨⟨2025, 8, 10⟩, 1⟩ then 2025 + 1
                   else 2025, 7, 11⟩) :=
  implicit_year_resolution.1 "July 11" 2025 ⟨⟨2025, 8, 10⟩, 1⟩ 7 11
    (by decide) (by decide) (by decide) (by decide) (by decide)

/-- C1: whenever `scrape` returns normally, both bounds parsed, and every
returned record has a non-empty `name` and a `date` that is exactly the
`%Y-%m-%d` rendering of a valid calendar date lying inside
`[start_date, end_date]` (all remaining fields exist by the record type,
defaulted to `""` at extraction when absent in the page). -/
theorem scrape_records_contract (startS endS : String) (elems : List PageElem)
    (now : Instant) (out : List NormItem)
    (h : Scraper.scrape startS endS elems now = some out) :
    ∃ sd ed, fromISO startS = some sd ∧ fromISO endS = some ed ∧
      ∀ r ∈ out, r.name ≠ "" ∧ ∃ d, validDate d = true ∧ r.date = toISO d ∧
        dateLE sd d = true ∧ dateLE d ed = true := by
  unfold Scraper.scrape at h
  cases h1 : fromISO startS with
  | none => cases h2 : fromISO endS <;> simp only [h1, h2] at h <;> cases h
  | some sd =>
    cases h2 : fromISO endS with
    | none => simp only [h1, h2] at h; cases h
    | some ed =>
      simp only [h1, h2] at h
      cases h
      refine ⟨sd, ed, rfl, rfl, ?_⟩
      intro r hr
      have hr2 : r ∈ Scraper.processItems sd ed now.date.year now
          (Scraper.extractAllData elems) := (List.mem_filter.mp hr).1
      unfold Scraper.processItems at hr2
      rw [List.mem_filterMap] at hr2
      obtain ⟨it, hit, hpi⟩ := hr2
      have hname := (extractAux_mem elems [] it hit).1
      obtain ⟨hnm, d, hv, hdate, hle1, hle2⟩ := processItem_some sd ed _ now it r hpi
      exact ⟨by rw [hnm]; exact hname, d, hv, hdate, hle1, hle2⟩

/-- C1 witness: the end-to-end scenario of the spec — two date headers,
one valid listing, one empty-name listing, one sports listing — yields the
single `Show A` record, and the theorem applies to it. -/
theorem scrape_records_contract_witness :
    ∃ sd ed, fromISO "2025-06-01" = some sd ∧ fromISO "2025-06-03" = some ed ∧
      ∀ r ∈ [({ name := "Show A", type := "Series", description := "",
                channel := "Netflix", channel_image := "", show_image := "",
                website := "http://x", website_url := "", country := "US",
                date := "2025-06-02" } : NormItem)],
        r.name ≠ "" ∧ ∃ d, validDate d = true ∧ r.date = toISO d ∧
          dateLE sd d = true ∧ dateLE d ed = true :=
  scrape_records_contract "2025-06-01" "2025-06-03"
    [PageElem.h6 "Monday, June 2, 2025",
     PageElem.a (some "Show A") (some "Series") none (some "Netflix") none none
       (some "http://x"),
     PageElem.a (some "") none none (some "Hulu") none none none,
     PageElem.h6 "Tuesday, June 3, 2025",
     PageElem.a (some "Show B") none none (some "ESPN") none none none]
    ⟨⟨2025, 6, 1⟩, 0⟩ _ (by decide)

/-- C5 witness: a record headed `"Sometime Soon"` contributes nothing to
the pipeline output. -/
theorem unparseable_header_dropped_witness :
    Scraper.filterExcludedContent (Scraper.processItems ⟨2025, 6, 1⟩ ⟨2025, 6, 3⟩ 2025
        ⟨⟨2025, 6, 1⟩, 0⟩
        ([] ++ ({ date_header := "Sometime Soon", name := "Mystery Show", type := "",
                  description := "", channel := "", channel_image := "",
                  show_image := "", website := "", website_url := "",
                  country := "US" } : RawItem) :: [])) =
      Scraper.filterExcludedContent (Scraper.processItems ⟨2025, 6, 1⟩ ⟨2025, 6, 3⟩ 2025
        ⟨⟨2025, 6, 1⟩, 0⟩ ([] ++ [])) :=
  unparseable_header_dropped.1 ⟨2025, 6, 1⟩ ⟨2025, 6, 3⟩ 2025 ⟨⟨2025, 6, 1⟩, 0⟩
    _ [] [] (by decide)

/-- C10 witness: a listing before the first date header is dropped by
both extraction passes. -/
theorem listing_requires_preceding_header_witness :
    Scraper.extractAllData ([PageElem.a (some "Early Show") none none none none none none] ++
        [PageElem.h6 "Monday, June 2, 2025"]) =
      Scraper.extractAllData [PageElem.h6 "Monday, June 2, 2025"] :=
  listing_requires_preceding_header.1
    [PageElem.a (some "Early Show") none none none none none none]
    [PageElem.h6 "Monday, June 2, 2025"] (by decide)
